import Mathlib

/-!
Verification of the FNV hash accumulators of `galerautils/src/gu_fnv.h`.

The C code is shallowly embedded: the input buffer is a `List Nat` of bytes,
machine integers are `Nat` reduced modulo `2 ^ width` exactly where the C
arithmetic wraps, and the byte pointers `bp`/`be` of the C loops become `Int`
offsets from the start of the buffer (so that the pointer comparisons
`bp <= be - 2` behave as in C even for lengths `0` and `1`, and for negative
lengths).  The `assert(be == bp)` at the end of each accumulator is embedded
by returning an `Option`: `none` models the abort of a failed assertion.
-/

set_option maxHeartbeats 1000000

namespace GuFnv

/-- Byte read `*bp` at offset `p` from the start of buffer `B`; reads outside
the buffer (undefined behaviour in C) return 0. -/
def byteAt (B : List Nat) (p : Int) : Nat := B.getD p.toNat 0

def GU_FNV32_PRIME : Nat := 16777619
def GU_FNV32_SEED : Nat := 2166136261
def GU_FNV64_PRIME : Nat := 1099511628211
def GU_FNV64_SEED : Nat := 14695981039346656037

/-- `GU_SET128(GU_FNV128_PRIME, 0x0000000001000000ULL, 0x000000000000013BULL)`:
the 128-bit FNV prime from its two 64-bit halves. -/
def GU_FNV128_PRIME : Nat := 0x0000000001000000 * 2 ^ 64 + 0x000000000000013B

/-- `GU_SET128(GU_FNV128_SEED, 0x6C62272E07BB0142ULL, 0x62B821756295C58DULL)`. -/
def GU_FNV128_SEED : Nat := 0x6C62272E07BB0142 * 2 ^ 64 + 0x62B821756295C58D

/-- `GU_FNV32_MUL` in the default configuration: `_x *= GU_FNV32_PRIME`
on a `uint32_t`. -/
def GU_FNV32_MUL (x : Nat) : Nat := x * GU_FNV32_PRIME % 2 ^ 32

/-- `GU_FNV32_MUL` under `GU_FNVBITSHIFT_OPTIMIZATION`:
`_x += (_x << 1) + (_x << 4) + (_x << 7) + (_x << 8) + (_x << 24)`,
every shift and addition performed in `uint32_t`. -/
def GU_FNV32_MUL_bitshift (x : Nat) : Nat :=
  (x + (((((x <<< 1) % 2 ^ 32 + (x <<< 4) % 2 ^ 32) % 2 ^ 32
      + (x <<< 7) % 2 ^ 32) % 2 ^ 32
      + (x <<< 8) % 2 ^ 32) % 2 ^ 32
      + (x <<< 24) % 2 ^ 32) % 2 ^ 32) % 2 ^ 32

/-- `GU_FNV64_MUL` in the default configuration. -/
def GU_FNV64_MUL (x : Nat) : Nat := x * GU_FNV64_PRIME % 2 ^ 64

/-- `GU_FNV64_MUL` under `GU_FNVBITSHIFT_OPTIMIZATION`:
`_x += (_x << 1) + (_x << 4) + (_x << 5) + (_x << 7) + (_x << 8) + (_x << 40)`. -/
def GU_FNV64_MUL_bitshift (x : Nat) : Nat :=
  (x + ((((((x <<< 1) % 2 ^ 64 + (x <<< 4) % 2 ^ 64) % 2 ^ 64
      + (x <<< 5) % 2 ^ 64) % 2 ^ 64
      + (x <<< 7) % 2 ^ 64) % 2 ^ 64
      + (x <<< 8) % 2 ^ 64) % 2 ^ 64
      + (x <<< 40) % 2 ^ 64) % 2 ^ 64) % 2 ^ 64

/-- `GU_FNV128_MUL` in the default `__SIZEOF_INT128__` configuration:
`_x *= GU_FNV128_PRIME` on an `unsigned __int128`. -/
def GU_FNV128_MUL (x : Nat) : Nat := x * GU_FNV128_PRIME % 2 ^ 128

/-- `GU_FNV128_MUL` under `GU_FNVBITSHIFT_OPTIMIZATION`:
`_x += (_x << 1) + (_x << 3) + (_x << 4) + (_x << 5) + (_x << 8) + (_x << 88)`. -/
def GU_FNV128_MUL_bitshift (x : Nat) : Nat :=
  (x + ((((((x <<< 1) % 2 ^ 128 + (x <<< 3) % 2 ^ 128) % 2 ^ 128
      + (x <<< 4) % 2 ^ 128) % 2 ^ 128
      + (x <<< 5) % 2 ^ 128) % 2 ^ 128
      + (x <<< 8) % 2 ^ 128) % 2 ^ 128
      + (x <<< 88) % 2 ^ 128) % 2 ^ 128) % 2 ^ 128

/-- `GU_FNV32_ITERATION` in the default (FNV-1a) configuration:
`_s ^= _b; GU_FNV32_MUL(_s);`. -/
def gu_fnv32_iteration (s b : Nat) : Nat := GU_FNV32_MUL (s ^^^ b)

/-- `GU_FNV32_ITERATION` under `GU_FNV_NORMAL` (FNV-1):
`GU_FNV32_MUL(_s); _s ^= _b;`. -/
def gu_fnv32_iteration_normal (s b : Nat) : Nat := GU_FNV32_MUL s ^^^ b

/-- `GU_FNV32_ITERATION` with the bitshift multiplication strategy. -/
def gu_fnv32_iteration_bitshift (s b : Nat) : Nat := GU_FNV32_MUL_bitshift (s ^^^ b)

/-- `GU_FNV64_ITERATION` in the default (FNV-1a) configuration. -/
def gu_fnv64_iteration (s b : Nat) : Nat := GU_FNV64_MUL (s ^^^ b)

/-- `GU_FNV64_ITERATION` under `GU_FNV_NORMAL` (FNV-1). -/
def gu_fnv64_iteration_normal (s b : Nat) : Nat := GU_FNV64_MUL s ^^^ b

/-- `GU_FNV64_ITERATION` with the bitshift multiplication strategy. -/
def gu_fnv64_iteration_bitshift (s b : Nat) : Nat := GU_FNV64_MUL_bitshift (s ^^^ b)

/-- `GU_FNV128_ITERATION` in the default (FNV-1a) configuration:
`GU_FNV128_XOR(_s,_b); GU_FNV128_MUL(_s);`. -/
def gu_fnv128_iteration (s b : Nat) : Nat := GU_FNV128_MUL (s ^^^ b)

/-- `GU_FNV128_ITERATION` under `GU_FNV_NORMAL` (FNV-1). -/
def gu_fnv128_iteration_normal (s b : Nat) : Nat := GU_FNV128_MUL s ^^^ b

/-- `GU_FNV128_ITERATION` with the bitshift multiplication strategy. -/
def gu_fnv128_iteration_bitshift (s b : Nat) : Nat := GU_FNV128_MUL_bitshift (s ^^^ b)

/-- The 2-byte unrolled main loop of `gu_fnv32a_internal` / `gu_fnv64a_internal`:
`while (bp <= be - 2) { ITERATION(*seed,*bp++); ITERATION(*seed,*bp++); }`,
parameterised by the iteration function selected at build time.
Returns the seed and the final cursor position. -/
def fnvLoop2 (it : Nat → Nat → Nat) (B : List Nat) (be : Int) (s : Nat) (p : Int) :
    Nat × Int :=
  if p ≤ be - 2 then
    fnvLoop2 it B be (it (it s (byteAt B p)) (byteAt B (p + 1))) (p + 2)
  else
    (s, p)
termination_by (be - p).toNat
decreasing_by simp_wf; omega

/-- The 8-byte unrolled main loop of `gu_fnv128a_internal`. -/
def fnvLoop8 (it : Nat → Nat → Nat) (B : List Nat) (be : Int) (s : Nat) (p : Int) :
    Nat × Int :=
  if p ≤ be - 8 then
    fnvLoop8 it B be
      (it (it (it (it (it (it (it (it s
        (byteAt B p)) (byteAt B (p + 1))) (byteAt B (p + 2))) (byteAt B (p + 3)))
        (byteAt B (p + 4))) (byteAt B (p + 5))) (byteAt B (p + 6))) (byteAt B (p + 7)))
      (p + 8)
  else
    (s, p)
termination_by (be - p).toNat
decreasing_by simp_wf; omega

/-- Body of `gu_fnv32a_internal` / `gu_fnv64a_internal`: the 2-byte unrolled
loop followed by the conditional 1-byte tail `if (bp < be) { ITERATION; }`. -/
def fnvAccum2 (it : Nat → Nat → Nat) (B : List Nat) (len : Int) (s : Nat) :
    Nat × Int :=
  let r := fnvLoop2 it B len s 0
  if r.2 < len then (it r.1 (byteAt B r.2), r.2 + 1) else r

/-- Body of `gu_fnv128a_internal`: the 8-byte unrolled loop followed by the
cascading conditional tails of 4, 2 and 1 bytes. -/
def fnvAccum8 (it : Nat → Nat → Nat) (B : List Nat) (len : Int) (s : Nat) :
    Nat × Int :=
  let r := fnvLoop8 it B len s 0
  let r := if r.2 ≤ len - 4 then
      (it (it (it (it r.1 (byteAt B r.2)) (byteAt B (r.2 + 1)))
        (byteAt B (r.2 + 2))) (byteAt B (r.2 + 3)), r.2 + 4)
    else r
  let r := if r.2 ≤ len - 2 then
      (it (it r.1 (byteAt B r.2)) (byteAt B (r.2 + 1)), r.2 + 2)
    else r
  if r.2 < len then (it r.1 (byteAt B r.2), r.2 + 1) else r

/-- The terminating `assert(be == bp)`: a failed assertion aborts (`none`),
otherwise the accumulated seed is the result. -/
def fnvAssert (len : Int) (r : Nat × Int) : Option Nat :=
  if len = r.2 then some r.1 else none

/-- `gu_fnv32a_internal` (default FNV-1a configuration). -/
def gu_fnv32a_internal (B : List Nat) (len : Int) (seed : Nat) : Option Nat :=
  fnvAssert len (fnvAccum2 gu_fnv32_iteration B len seed)

/-- `gu_fnv64a_internal` (default FNV-1a configuration). -/
def gu_fnv64a_internal (B : List Nat) (len : Int) (seed : Nat) : Option Nat :=
  fnvAssert len (fnvAccum2 gu_fnv64_iteration B len seed)

/-- `gu_fnv128a_internal` (default FNV-1a configuration). -/
def gu_fnv128a_internal (B : List Nat) (len : Int) (seed : Nat) : Option Nat :=
  fnvAssert len (fnvAccum8 gu_fnv128_iteration B len seed)

/-- `gu_fnv32a_internal` compiled under `GU_FNV_NORMAL` (FNV-1 ordering). -/
def gu_fnv32a_internal_normal (B : List Nat) (len : Int) (seed : Nat) : Option Nat :=
  fnvAssert len (fnvAccum2 gu_fnv32_iteration_normal B len seed)

/-- `gu_fnv64a_internal` compiled under `GU_FNV_NORMAL` (FNV-1 ordering). -/
def gu_fnv64a_internal_normal (B : List Nat) (len : Int) (seed : Nat) : Option Nat :=
  fnvAssert len (fnvAccum2 gu_fnv64_iteration_normal B len seed)

/-- `gu_fnv128a_internal` compiled under `GU_FNV_NORMAL` (FNV-1 ordering). -/
def gu_fnv128a_internal_normal (B : List Nat) (len : Int) (seed : Nat) : Option Nat :=
  fnvAssert len (fnvAccum8 gu_fnv128_iteration_normal B len seed)

/-- `gu_fnv32a_internal` compiled under `GU_FNVBITSHIFT_OPTIMIZATION`. -/
def gu_fnv32a_internal_bitshift (B : List Nat) (len : Int) (seed : Nat) : Option Nat :=
  fnvAssert len (fnvAccum2 gu_fnv32_iteration_bitshift B len seed)

/-- `gu_fnv64a_internal` compiled under `GU_FNVBITSHIFT_OPTIMIZATION`. -/
def gu_fnv64a_internal_bitshift (B : List Nat) (len : Int) (seed : Nat) : Option Nat :=
  fnvAssert len (fnvAccum2 gu_fnv64_iteration_bitshift B len seed)

/-- `gu_fnv128a_internal` compiled under `GU_FNVBITSHIFT_OPTIMIZATION`. -/
def gu_fnv128a_internal_bitshift (B : List Nat) (len : Int) (seed : Nat) : Option Nat :=
  fnvAssert len (fnvAccum8 gu_fnv128_iteration_bitshift B len seed)

/-- The canonical specification fold: the seed folded over the remaining bytes
of `B` from offset `p` on, one iteration per byte, left to right. -/
def foldFrom (it : Nat → Nat → Nat) (B : List Nat) (p : Int) (s : Nat) : Nat :=
  (B.drop p.toNat).foldl it s

theorem foldFrom_zero (it : Nat → Nat → Nat) (B : List Nat) (s : Nat) :
    foldFrom it B 0 s = B.foldl it s := by
  simp [foldFrom]

theorem foldFrom_end (it : Nat → Nat → Nat) (B : List Nat) (p : Int) (s : Nat)
    (h : (B.length : Int) ≤ p) : foldFrom it B p s = s := by
  have hlen : B.length ≤ p.toNat := by omega
  simp [foldFrom, List.drop_eq_nil_of_le hlen]

theorem fold_step (it : Nat → Nat → Nat) (B : List Nat) (p : Int) (s : Nat)
    (h0 : 0 ≤ p) (h1 : p < (B.length : Int)) :
    foldFrom it B p s = foldFrom it B (p + 1) (it s (byteAt B p)) := by
  unfold foldFrom byteAt
  have hj : p.toNat < B.length := by omega
  have h2 : (p + 1).toNat = p.toNat + 1 := by omega
  rw [h2, List.drop_eq_getElem_cons hj, List.foldl_cons, List.getD_eq_getElem _ _ hj]

theorem fnvLoop2_spec (it : Nat → Nat → Nat) (B : List Nat) (be : Int) :
    ∀ (k : Nat) (p : Int) (s : Nat), (be - p).toNat ≤ k → 0 ≤ p → p ≤ be →
      p ≤ (fnvLoop2 it B be s p).2 ∧ (fnvLoop2 it B be s p).2 ≤ be ∧
      be - 2 < (fnvLoop2 it B be s p).2 ∧
      (be = (B.length : Int) →
        foldFrom it B (fnvLoop2 it B be s p).2 (fnvLoop2 it B be s p).1 =
          foldFrom it B p s) := by
  intro k
  induction k with
  | zero =>
    intro p s hk h0 h1
    rw [fnvLoop2, if_neg (by omega)]
    exact ⟨le_refl _, h1, by omega, fun _ => rfl⟩
  | succ k IH =>
    intro p s hk h0 h1
    rw [fnvLoop2]
    by_cases h : p ≤ be - 2
    · rw [if_pos h]
      have IH2 := IH (p + 2) (it (it s (byteAt B p)) (byteAt B (p + 1)))
        (by omega) (by omega) (by omega)
      refine ⟨by have := IH2.1; omega, IH2.2.1, IH2.2.2.1, ?_⟩
      intro hbe
      rw [IH2.2.2.2 hbe]
      rw [fold_step it B p s h0 (by omega), fold_step it B (p + 1) _ (by omega) (by omega)]
      have h11 : p + 1 + 1 = p + 2 := by ring
      rw [h11]
    · rw [if_neg h]
      exact ⟨le_refl _, h1, by omega, fun _ => rfl⟩

theorem fnvLoop8_spec (it : Nat → Nat → Nat) (B : List Nat) (be : Int) :
    ∀ (k : Nat) (p : Int) (s : Nat), (be - p).toNat ≤ k → 0 ≤ p → p ≤ be →
      p ≤ (fnvLoop8 it B be s p).2 ∧ (fnvLoop8 it B be s p).2 ≤ be ∧
      be - 8 < (fnvLoop8 it B be s p).2 ∧
      (be = (B.length : Int) →
        foldFrom it B (fnvLoop8 it B be s p).2 (fnvLoop8 it B be s p).1 =
          foldFrom it B p s) := by
  intro k
  induction k with
  | zero =>
    intro p s hk h0 h1
    rw [fnvLoop8, if_neg (by omega)]
    exact ⟨le_refl _, h1, by omega, fun _ => rfl⟩
  | succ k IH =>
    intro p s hk h0 h1
    rw [fnvLoop8]
    by_cases h : p ≤ be - 8
    · rw [if_pos h]
      have IH2 := IH (p + 8)
        (it (it (it (it (it (it (it (it s
          (byteAt B p)) (byteAt B (p + 1))) (byteAt B (p + 2))) (byteAt B (p + 3)))
          (byteAt B (p + 4))) (byteAt B (p + 5))) (byteAt B (p + 6))) (byteAt B (p + 7)))
        (by omega) (by omega) (by omega)
      refine ⟨by have := IH2.1; omega, IH2.2.1, IH2.2.2.1, ?_⟩
      intro hbe
      rw [IH2.2.2.2 hbe]
      rw [fold_step it B p s h0 (by omega),
        fold_step it B (p + 1) _ (by omega) (by omega),
        fold_step it B (p + 1 + 1) _ (by omega) (by omega),
        fold_step it B (p + 1 + 1 + 1) _ (by omega) (by omega),
        fold_step it B (p + 1 + 1 + 1 + 1) _ (by omega) (by omega),
        fold_step it B (p + 1 + 1 + 1 + 1 + 1) _ (by omega) (by omega),
        fold_step it B (p + 1 + 1 + 1 + 1 + 1 + 1) _ (by omega) (by omega),
        fold_step it B (p + 1 + 1 + 1 + 1 + 1 + 1 + 1) _ (by omega) (by omega)]
      have h2 : p + 1 + 1 = p + 2 := by ring
      have h3 : p + 2 + 1 = p + 3 := by ring
      have h4 : p + 3 + 1 = p + 4 := by ring
      have h5 : p + 4 + 1 = p + 5 := by ring
      have h6 : p + 5 + 1 = p + 6 := by ring
      have h7 : p + 6 + 1 = p + 7 := by ring
      have h8 : p + 7 + 1 = p + 8 := by ring
      simp only [h2, h3, h4, h5, h6, h7, h8]
    · rw [if_neg h]
      exact ⟨le_refl _, h1, by omega, fun _ => rfl⟩

theorem fnvAccum2_cursor (it : Nat → Nat → Nat) (B : List Nat) (len : Int) (s : Nat)
    (h : 0 ≤ len) : (fnvAccum2 it B len s).2 = len := by
  simp only [fnvAccum2]
  obtain ⟨l1, l2, l3, l4⟩ :=
    fnvLoop2_spec it B len len.toNat 0 s (by omega) (by omega) h
  set r := fnvLoop2 it B len s 0 with hr
  by_cases hc : r.2 < len
  · rw [if_pos hc]
    show r.2 + 1 = len
    omega
  · rw [if_neg hc]
    omega

theorem fnvAccum2_fold (it : Nat → Nat → Nat) (B : List Nat) (s : Nat) :
    fnvAccum2 it B (B.length : Int) s = (B.foldl it s, (B.length : Int)) := by
  simp only [fnvAccum2]
  obtain ⟨l1, l2, l3, l4⟩ :=
    fnvLoop2_spec it B (B.length : Int) B.length 0 s (by omega) (by omega) (by omega)
  set r := fnvLoop2 it B (B.length : Int) s 0 with hr
  have hf := l4 rfl
  rw [foldFrom_zero] at hf
  by_cases hc : r.2 < (B.length : Int)
  · rw [if_pos hc]
    have hs := fold_step it B r.2 r.1 (by omega) hc
    rw [hf] at hs
    have he : r.2 + 1 = (B.length : Int) := by omega
    rw [he, foldFrom_end it B _ _ (le_refl _)] at hs
    exact Prod.ext hs.symm he
  · rw [if_neg hc]
    have he : r.2 = (B.length : Int) := by omega
    refine Prod.ext ?_ he
    rw [← hf, he, foldFrom_end it B _ _ (le_refl _)]

theorem fnvAccum8_cursor (it : Nat → Nat → Nat) (B : List Nat) (len : Int) (s : Nat)
    (h : 0 ≤ len) : (fnvAccum8 it B len s).2 = len := by
  simp only [fnvAccum8]
  obtain ⟨l1, l2, l3, l4⟩ :=
    fnvLoop8_spec it B len len.toNat 0 s (by omega) (by omega) h
  set r := fnvLoop8 it B len s 0 with hr
  by_cases h4 : r.2 ≤ len - 4
  · rw [if_pos h4]
    dsimp only
    by_cases h2 : r.2 + 4 ≤ len - 2
    · rw [if_pos h2]
      dsimp only
      by_cases h1 : r.2 + 4 + 2 < len
      · rw [if_pos h1]
        show r.2 + 4 + 2 + 1 = len
        omega
      · rw [if_neg h1]
        show r.2 + 4 + 2 = len
        omega
    · rw [if_neg h2]
      dsimp only
      by_cases h1 : r.2 + 4 < len
      · rw [if_pos h1]
        show r.2 + 4 + 1 = len
        omega
      · rw [if_neg h1]
        show r.2 + 4 = len
        omega
  · rw [if_neg h4]
    by_cases h2 : r.2 ≤ len - 2
    · rw [if_pos h2]
      dsimp only
      by_cases h1 : r.2 + 2 < len
      · rw [if_pos h1]
        show r.2 + 2 + 1 = len
        omega
      · rw [if_neg h1]
        show r.2 + 2 = len
        omega
    · rw [if_neg h2]
      by_cases h1 : r.2 < len
      · rw [if_pos h1]
        show r.2 + 1 = len
        omega
      · rw [if_neg h1]
        omega

theorem fnvAccum8_fold (it : Nat → Nat → Nat) (B : List Nat) (s : Nat) :
    fnvAccum8 it B (B.length : Int) s = (B.foldl it s, (B.length : Int)) := by
  set n := (B.length : Int) with hn
  simp only [fnvAccum8]
  obtain ⟨l1, l2, l3, l4⟩ :=
    fnvLoop8_spec it B n n.toNat 0 s (by omega) (by omega) (by omega)
  have hf0 := l4 hn
  rw [foldFrom_zero] at hf0
  set r := fnvLoop8 it B n s 0 with hr
  have step : ∀ (c d : Int) (v : Nat), 0 ≤ c → c < n → d = c + 1 →
      foldFrom it B c v = B.foldl it s →
      foldFrom it B d (it v (byteAt B c)) = B.foldl it s := by
    intro c d v hc0 hcn hd he
    subst hd
    rw [← fold_step it B c v hc0 (by omega)]
    exact he
  have fin : ∀ (c : Int) (v : Nat), c = n → foldFrom it B c v = B.foldl it s →
      v = B.foldl it s := by
    intro c v hc hv
    rw [hc, foldFrom_end it B n v (by omega)] at hv
    exact hv
  by_cases h4 : r.2 ≤ n - 4
  · rw [if_pos h4]
    dsimp only
    have f1 := step r.2 (r.2 + 1) r.1 (by omega) (by omega) rfl hf0
    have f2 := step (r.2 + 1) (r.2 + 2) _ (by omega) (by omega) (by ring) f1
    have f3 := step (r.2 + 2) (r.2 + 3) _ (by omega) (by omega) (by ring) f2
    have f4 := step (r.2 + 3) (r.2 + 4) _ (by omega) (by omega) (by ring) f3
    by_cases h2 : r.2 + 4 ≤ n - 2
    · rw [if_pos h2]
      dsimp only
      have f5 := step (r.2 + 4) (r.2 + 4 + 1) _ (by omega) (by omega) rfl f4
      have f6 := step (r.2 + 4 + 1) (r.2 + 4 + 2) _ (by omega) (by omega) (by ring) f5
      by_cases h1 : r.2 + 4 + 2 < n
      · rw [if_pos h1]
        have f7 := step (r.2 + 4 + 2) (r.2 + 4 + 2 + 1) _ (by omega) (by omega) rfl f6
        exact Prod.ext (fin _ _ (by omega) f7) (by omega)
      · rw [if_neg h1]
        exact Prod.ext (fin _ _ (by omega) f6) (by omega)
    · rw [if_neg h2]
      dsimp only
      by_cases h1 : r.2 + 4 < n
      · rw [if_pos h1]
        have f5 := step (r.2 + 4) (r.2 + 4 + 1) _ (by omega) (by omega) rfl f4
        exact Prod.ext (fin _ _ (by omega) f5) (by omega)
      · rw [if_neg h1]
        exact Prod.ext (fin _ _ (by omega) f4) (by omega)
  · rw [if_neg h4]
    by_cases h2 : r.2 ≤ n - 2
    · rw [if_pos h2]
      dsimp only
      have f1 := step r.2 (r.2 + 1) r.1 (by omega) (by omega) rfl hf0
      have f2 := step (r.2 + 1) (r.2 + 2) _ (by omega) (by omega) (by ring) f1
      by_cases h1 : r.2 + 2 < n
      · rw [if_pos h1]
        have f3 := step (r.2 + 2) (r.2 + 2 + 1) _ (by omega) (by omega) rfl f2
        exact Prod.ext (fin _ _ (by omega) f3) (by omega)
      · rw [if_neg h1]
        exact Prod.ext (fin _ _ (by omega) f2) (by omega)
    · rw [if_neg h2]
      by_cases h1 : r.2 < n
      · rw [if_pos h1]
        have f1 := step r.2 (r.2 + 1) r.1 (by omega) (by omega) rfl hf0
        exact Prod.ext (fin _ _ (by omega) f1) (by omega)
      · rw [if_neg h1]
        exact Prod.ext (fin _ _ (by omega) hf0) (by omega)

theorem fnvAssert_pair (len : Int) (v : Nat) : fnvAssert len (v, len) = some v := by
  simp [fnvAssert]

theorem gu_fnv32a_internal_fold (B : List Nat) (s : Nat) :
    gu_fnv32a_internal B (B.length : Int) s = some (B.foldl gu_fnv32_iteration s) := by
  rw [gu_fnv32a_internal, fnvAccum2_fold, fnvAssert_pair]

theorem gu_fnv64a_internal_fold (B : List Nat) (s : Nat) :
    gu_fnv64a_internal B (B.length : Int) s = some (B.foldl gu_fnv64_iteration s) := by
  rw [gu_fnv64a_internal, fnvAccum2_fold, fnvAssert_pair]

theorem gu_fnv128a_internal_fold (B : List Nat) (s : Nat) :
    gu_fnv128a_internal B (B.length : Int) s = some (B.foldl gu_fnv128_iteration s) := by
  rw [gu_fnv128a_internal, fnvAccum8_fold, fnvAssert_pair]

theorem gu_fnv32a_internal_normal_fold (B : List Nat) (s : Nat) :
    gu_fnv32a_internal_normal B (B.length : Int) s =
      some (B.foldl gu_fnv32_iteration_normal s) := by
  rw [gu_fnv32a_internal_normal, fnvAccum2_fold, fnvAssert_pair]

theorem gu_fnv64a_internal_normal_fold (B : List Nat) (s : Nat) :
    gu_fnv64a_internal_normal B (B.length : Int) s =
      some (B.foldl gu_fnv64_iteration_normal s) := by
  rw [gu_fnv64a_internal_normal, fnvAccum2_fold, fnvAssert_pair]

theorem gu_fnv128a_internal_normal_fold (B : List Nat) (s : Nat) :
    gu_fnv128a_internal_normal B (B.length : Int) s =
      some (B.foldl gu_fnv128_iteration_normal s) := by
  rw [gu_fnv128a_internal_normal, fnvAccum8_fold, fnvAssert_pair]

theorem fnvAccum2_neg (it : Nat → Nat → Nat) (B : List Nat) (len : Int) (s : Nat)
    (h : len < 0) : fnvAccum2 it B len s = (s, 0) := by
  simp only [fnvAccum2]
  rw [fnvLoop2, if_neg (show ¬ ((0 : Int) ≤ len - 2) by omega)]
  dsimp only
  rw [if_neg (show ¬ ((0 : Int) < len) by omega)]

theorem fnvAccum8_neg (it : Nat → Nat → Nat) (B : List Nat) (len : Int) (s : Nat)
    (h : len < 0) : fnvAccum8 it B len s = (s, 0) := by
  simp only [fnvAccum8]
  rw [fnvLoop8, if_neg (show ¬ ((0 : Int) ≤ len - 8) by omega)]
  dsimp only
  rw [if_neg (show ¬ ((0 : Int) ≤ len - 4) by omega)]
  dsimp only
  rw [if_neg (show ¬ ((0 : Int) ≤ len - 2) by omega)]
  dsimp only
  rw [if_neg (show ¬ ((0 : Int) < len) by omega)]

theorem foldl_bound (it : Nat → Nat → Nat) (M : Nat) (hit : ∀ s b, it s b < M) :
    ∀ (B : List Nat) (s : Nat), s < M → B.foldl it s < M := by
  intro B
  induction B with
  | nil => intro s hs; simpa using hs
  | cons b B IH =>
    intro s hs
    rw [List.foldl_cons]
    exact IH _ (hit s b)

theorem gu_fnv32_iteration_lt (s b : Nat) : gu_fnv32_iteration s b < 2 ^ 32 :=
  Nat.mod_lt _ (by norm_num)

theorem gu_fnv64_iteration_lt (s b : Nat) : gu_fnv64_iteration s b < 2 ^ 64 :=
  Nat.mod_lt _ (by norm_num)

theorem gu_fnv128_iteration_lt (s b : Nat) : gu_fnv128_iteration s b < 2 ^ 128 :=
  Nat.mod_lt _ (by norm_num)

theorem GU_FNV32_MUL_bitshift_eq (x : Nat) :
    GU_FNV32_MUL_bitshift x = GU_FNV32_MUL x := by
  unfold GU_FNV32_MUL_bitshift GU_FNV32_MUL GU_FNV32_PRIME
  simp only [Nat.shiftLeft_eq]
  norm_num
  omega

theorem GU_FNV64_MUL_bitshift_eq (x : Nat) :
    GU_FNV64_MUL_bitshift x = GU_FNV64_MUL x := by
  unfold GU_FNV64_MUL_bitshift GU_FNV64_MUL GU_FNV64_PRIME
  simp only [Nat.shiftLeft_eq]
  norm_num
  omega

theorem GU_FNV128_MUL_bitshift_eq (x : Nat) :
    GU_FNV128_MUL_bitshift x = GU_FNV128_MUL x := by
  unfold GU_FNV128_MUL_bitshift GU_FNV128_MUL GU_FNV128_PRIME
  simp only [Nat.shiftLeft_eq]
  norm_num
  omega

theorem gu_fnv32_iteration_bitshift_eq :
    gu_fnv32_iteration_bitshift = gu_fnv32_iteration := by
  funext s b
  unfold gu_fnv32_iteration_bitshift gu_fnv32_iteration
  exact GU_FNV32_MUL_bitshift_eq _

theorem gu_fnv64_iteration_bitshift_eq :
    gu_fnv64_iteration_bitshift = gu_fnv64_iteration := by
  funext s b
  unfold gu_fnv64_iteration_bitshift gu_fnv64_iteration
  exact GU_FNV64_MUL_bitshift_eq _

theorem gu_fnv128_iteration_bitshift_eq :
    gu_fnv128_iteration_bitshift = gu_fnv128_iteration := by
  funext s b
  unfold gu_fnv128_iteration_bitshift gu_fnv128_iteration
  exact GU_FNV128_MUL_bitshift_eq _

/-- Modelled from the spec: `gu_bswap32` (declared in the galerautils byte-order
headers, which are not part of this source tree) reverses the 4 bytes of a
32-bit value. -/
def gu_bswap32 (x : Nat) : Nat :=
  x % 2 ^ 8 * 2 ^ 24 + x / 2 ^ 8 % 2 ^ 8 * 2 ^ 16 + x / 2 ^ 16 % 2 ^ 8 * 2 ^ 8
    + x / 2 ^ 24 % 2 ^ 8

/-- Modelled from the spec: `gu_bswap64` reverses the 8 bytes of a 64-bit
value, i.e. swaps the two 32-bit halves and byte-reverses each. -/
def gu_bswap64 (x : Nat) : Nat :=
  gu_bswap32 (x % 2 ^ 32) * 2 ^ 32 + gu_bswap32 (x / 2 ^ 32 % 2 ^ 32)

/-- Modelled from the spec: `gu_bswap128` reverses the 16 bytes of a 128-bit
value, i.e. swaps the two 64-bit halves and byte-reverses each. -/
def gu_bswap128 (x : Nat) : Nat :=
  gu_bswap64 (x % 2 ^ 64) * 2 ^ 64 + gu_bswap64 (x / 2 ^ 64 % 2 ^ 64)

theorem gu_bswap32_lt (x : Nat) : gu_bswap32 x < 2 ^ 32 := by
  unfold gu_bswap32
  omega

theorem gu_bswap32_bytes (b0 b1 b2 b3 : Nat) (h0 : b0 < 2 ^ 8) (h1 : b1 < 2 ^ 8)
    (h2 : b2 < 2 ^ 8) (h3 : b3 < 2 ^ 8) :
    gu_bswap32 (b0 + 2 ^ 8 * b1 + 2 ^ 16 * b2 + 2 ^ 24 * b3)
      = b3 + 2 ^ 8 * b2 + 2 ^ 16 * b1 + 2 ^ 24 * b0 := by
  unfold gu_bswap32
  have d2 : (b0 + 2 ^ 8 * b1 + 2 ^ 16 * b2 + 2 ^ 24 * b3) / 2 ^ 8
      = b1 + 2 ^ 8 * b2 + 2 ^ 16 * b3 := by omega
  have d3 : (b0 + 2 ^ 8 * b1 + 2 ^ 16 * b2 + 2 ^ 24 * b3) / 2 ^ 16
      = b2 + 2 ^ 8 * b3 := by omega
  have d4 : (b0 + 2 ^ 8 * b1 + 2 ^ 16 * b2 + 2 ^ 24 * b3) / 2 ^ 24 = b3 := by omega
  rw [d2, d3, d4]
  omega

theorem byte_split32 (x : Nat) (hx : x < 2 ^ 32) :
    ∃ b0 b1 b2 b3, b0 < 2 ^ 8 ∧ b1 < 2 ^ 8 ∧ b2 < 2 ^ 8 ∧ b3 < 2 ^ 8 ∧
      x = b0 + 2 ^ 8 * b1 + 2 ^ 16 * b2 + 2 ^ 24 * b3 := by
  exact ⟨x % 2 ^ 8, x / 2 ^ 8 % 2 ^ 8, x / 2 ^ 16 % 2 ^ 8, x / 2 ^ 24, by omega,
    by omega, by omega, by omega, by omega⟩

theorem gu_bswap32_invol (x : Nat) (hx : x < 2 ^ 32) :
    gu_bswap32 (gu_bswap32 x) = x := by
  obtain ⟨b0, b1, b2, b3, h0, h1, h2, h3, hx4⟩ := byte_split32 x hx
  subst hx4
  rw [gu_bswap32_bytes b0 b1 b2 b3 h0 h1 h2 h3,
    gu_bswap32_bytes b3 b2 b1 b0 h3 h2 h1 h0]

theorem gu_bswap64_lt (x : Nat) : gu_bswap64 x < 2 ^ 64 := by
  unfold gu_bswap64
  have h1 := gu_bswap32_lt (x % 2 ^ 32)
  have h2 := gu_bswap32_lt (x / 2 ^ 32 % 2 ^ 32)
  omega

theorem gu_bswap64_invol (x : Nat) (hx : x < 2 ^ 64) :
    gu_bswap64 (gu_bswap64 x) = x := by
  unfold gu_bswap64
  have hA := gu_bswap32_lt (x % 2 ^ 32)
  have hB := gu_bswap32_lt (x / 2 ^ 32 % 2 ^ 32)
  have e1 : (gu_bswap32 (x % 2 ^ 32) * 2 ^ 32 + gu_bswap32 (x / 2 ^ 32 % 2 ^ 32))
      % 2 ^ 32 = gu_bswap32 (x / 2 ^ 32 % 2 ^ 32) := by omega
  have e2 : (gu_bswap32 (x % 2 ^ 32) * 2 ^ 32 + gu_bswap32 (x / 2 ^ 32 % 2 ^ 32))
      / 2 ^ 32 % 2 ^ 32 = gu_bswap32 (x % 2 ^ 32) := by omega
  rw [e1, e2, gu_bswap32_invol (x % 2 ^ 32) (by omega),
    gu_bswap32_invol (x / 2 ^ 32 % 2 ^ 32) (by omega)]
  omega

theorem gu_bswap128_lt (x : Nat) : gu_bswap128 x < 2 ^ 128 := by
  unfold gu_bswap128
  have h1 := gu_bswap64_lt (x % 2 ^ 64)
  have h2 := gu_bswap64_lt (x / 2 ^ 64 % 2 ^ 64)
  omega

theorem gu_bswap128_invol (x : Nat) (hx : x < 2 ^ 128) :
    gu_bswap128 (gu_bswap128 x) = x := by
  unfold gu_bswap128
  have hA := gu_bswap64_lt (x % 2 ^ 64)
  have hB := gu_bswap64_lt (x / 2 ^ 64 % 2 ^ 64)
  have e1 : (gu_bswap64 (x % 2 ^ 64) * 2 ^ 64 + gu_bswap64 (x / 2 ^ 64 % 2 ^ 64))
      % 2 ^ 64 = gu_bswap64 (x / 2 ^ 64 % 2 ^ 64) := by omega
  have e2 : (gu_bswap64 (x % 2 ^ 64) * 2 ^ 64 + gu_bswap64 (x / 2 ^ 64 % 2 ^ 64))
      / 2 ^ 64 % 2 ^ 64 = gu_bswap64 (x % 2 ^ 64) := by omega
  rw [e1, e2, gu_bswap64_invol (x % 2 ^ 64) (by omega),
    gu_bswap64_invol (x / 2 ^ 64 % 2 ^ 64) (by omega)]
  omega

/-- The `gu_fnv32a` macro on a big-endian target: byte-swap the stored seed,
run the (little-endian-canonical) internal accumulator, swap the result back. -/
def gu_fnv32a_big_endian (B : List Nat) (len : Int) (seed : Nat) : Option Nat :=
  (gu_fnv32a_internal B len (gu_bswap32 seed)).map gu_bswap32

/-- The `gu_fnv64a` macro on a big-endian target. -/
def gu_fnv64a_big_endian (B : List Nat) (len : Int) (seed : Nat) : Option Nat :=
  (gu_fnv64a_internal B len (gu_bswap64 seed)).map gu_bswap64

/-- The `gu_fnv128a` macro on a big-endian target. -/
def gu_fnv128a_big_endian (B : List Nat) (len : Int) (seed : Nat) : Option Nat :=
  (gu_fnv128a_internal B len (gu_bswap128 seed)).map gu_bswap128

/-- The big-endian path observed at the level of logical seed/digest values:
a logical value v is stored on a big-endian machine as the machine word
`gu_bswap32 v` (the canonical layout is little-endian), and the logical digest
is read back from the machine result the same way. -/
def gu_fnv32a_big_endian_logical (B : List Nat) (len : Int) (s : Nat) : Option Nat :=
  (gu_fnv32a_big_endian B len (gu_bswap32 s)).map gu_bswap32

/-- The 64-bit big-endian path observed at the level of logical values. -/
def gu_fnv64a_big_endian_logical (B : List Nat) (len : Int) (s : Nat) : Option Nat :=
  (gu_fnv64a_big_endian B len (gu_bswap64 s)).map gu_bswap64

/-- The 128-bit big-endian path observed at the level of logical values. -/
def gu_fnv128a_big_endian_logical (B : List Nat) (len : Int) (s : Nat) : Option Nat :=
  (gu_fnv128a_big_endian B len (gu_bswap128 s)).map gu_bswap128

theorem gu_fnv32a_big_endian_logical_eq (B : List Nat) (s : Nat) (hs : s < 2 ^ 32) :
    gu_fnv32a_big_endian_logical B (B.length : Int) s =
      gu_fnv32a_internal B (B.length : Int) s := by
  unfold gu_fnv32a_big_endian_logical gu_fnv32a_big_endian
  rw [gu_bswap32_invol s hs, gu_fnv32a_internal_fold]
  simp only [Option.map_some']
  rw [gu_bswap32_invol _ (foldl_bound _ _ gu_fnv32_iteration_lt B s hs)]

theorem gu_fnv64a_big_endian_logical_eq (B : List Nat) (s : Nat) (hs : s < 2 ^ 64) :
    gu_fnv64a_big_endian_logical B (B.length : Int) s =
      gu_fnv64a_internal B (B.length : Int) s := by
  unfold gu_fnv64a_big_endian_logical gu_fnv64a_big_endian
  rw [gu_bswap64_invol s hs, gu_fnv64a_internal_fold]
  simp only [Option.map_some']
  rw [gu_bswap64_invol _ (foldl_bound _ _ gu_fnv64_iteration_lt B s hs)]

theorem gu_fnv128a_big_endian_logical_eq (B : List Nat) (s : Nat) (hs : s < 2 ^ 128) :
    gu_fnv128a_big_endian_logical B (B.length : Int) s =
      gu_fnv128a_internal B (B.length : Int) s := by
  unfold gu_fnv128a_big_endian_logical gu_fnv128a_big_endian
  rw [gu_bswap128_invol s hs, gu_fnv128a_internal_fold]
  simp only [Option.map_some']
  rw [gu_bswap128_invol _ (foldl_bound _ _ gu_fnv128_iteration_lt B s hs)]

/-- Modelled from the spec: `GU_MUL128_INPLACE` (defined in `gu_int128.h`,
which is not part of this source tree) is a generic 128 x 128 -> 128 widening
multiplication, i.e. multiplication truncated modulo `2 ^ 128`. -/
def GU_MUL128_INPLACE (x p : Nat) : Nat := x * p % 2 ^ 128

/-- `GU_FNV128_MUL` in the no-`__SIZEOF_INT128__` configuration without
`GU_FNV128_FULL_MULTIPLICATION`: the sparse carry-propagation multiply on the
two 64-bit limbs `(hi, lo)` of the seed, using the `uint32_t` carry variable
and 64-bit wrapping arithmetic exactly as in the source. -/
def GU_FNV128_MUL_fallback (hi lo : Nat) : Nat × Nat :=
  let carry1 := (((lo % (2 ^ 32)) * 0x13b) >>> 32) % (2 ^ 32)
  let carry2 := (((lo >>> 32) * 0x13b + carry1) >>> 32) % (2 ^ 32)
  let hi1 := (hi * 0x13b) % (2 ^ 64)
  let hi2 := (hi1 + ((((lo <<< 24) % (2 ^ 64)) + carry2) % (2 ^ 64))) % (2 ^ 64)
  let lo1 := (lo * 0x13b) % (2 ^ 64)
  (hi2, lo1)

theorem GU_FNV128_MUL_fallback_eq (hi lo : Nat) (hhi : hi < 2 ^ 64)
    (hlo : lo < 2 ^ 64) :
    (GU_FNV128_MUL_fallback hi lo).1 * 2 ^ 64 + (GU_FNV128_MUL_fallback hi lo).2 =
      GU_MUL128_INPLACE (hi * 2 ^ 64 + lo) GU_FNV128_PRIME := by
  unfold GU_FNV128_MUL_fallback GU_MUL128_INPLACE GU_FNV128_PRIME
  simp only [Nat.shiftLeft_eq, Nat.shiftRight_eq_div_pow]
  have hc1 : (((lo % (2 ^ 32)) * 0x13b) / 2 ^ 32) % (2 ^ 32)
      = ((lo % (2 ^ 32)) * 0x13b) / 2 ^ 32 := by omega
  rw [hc1]
  have e1 : lo * 0x13b / 2 ^ 32
      = lo / 2 ^ 32 * 0x13b + lo % 2 ^ 32 * 0x13b / 2 ^ 32 := by omega
  have hc2 : ((lo / 2 ^ 32) * 0x13b + ((lo % (2 ^ 32)) * 0x13b) / 2 ^ 32) / 2 ^ 32
        % (2 ^ 32)
      = lo * 0x13b / 2 ^ 64 := by
    rw [← e1, Nat.div_div_eq_div_mul]
    norm_num
    omega
  rw [hc2]
  omega

theorem fnvAssert_none_iff_2 (it : Nat → Nat → Nat) (B : List Nat) (len : Int)
    (s : Nat) : fnvAssert len (fnvAccum2 it B len s) = none ↔ len < 0 := by
  constructor
  · intro h
    by_contra hn
    push_neg at hn
    have hc := fnvAccum2_cursor it B len s hn
    unfold fnvAssert at h
    rw [if_pos hc.symm] at h
    exact Option.some_ne_none _ h
  · intro h
    rw [fnvAccum2_neg it B len s h]
    unfold fnvAssert
    dsimp only
    rw [if_neg (by omega : ¬ len = (0 : Int))]

theorem fnvAssert_none_iff_8 (it : Nat → Nat → Nat) (B : List Nat) (len : Int)
    (s : Nat) : fnvAssert len (fnvAccum8 it B len s) = none ↔ len < 0 := by
  constructor
  · intro h
    by_contra hn
    push_neg at hn
    have hc := fnvAccum8_cursor it B len s hn
    unfold fnvAssert at h
    rw [if_pos hc.symm] at h
    exact Option.some_ne_none _ h
  · intro h
    rw [fnvAccum8_neg it B len s h]
    unfold fnvAssert
    dsimp only
    rw [if_neg (by omega : ¬ len = (0 : Int))]

/-- Claim C1: for every width in {32, 64, 128}, every seed and every byte
buffer, the internal accumulator (default FNV-1a configuration) succeeds and
produces exactly the left-to-right fold of the step
`s -> (s XOR b) * P mod 2 ^ w` over the bytes, one step per byte; the partial
unrolling (2-byte loop plus 1-byte tail, or 8-byte loop plus 4/2/1 tails) has
no effect on the result. -/
theorem fnv_internal_eq_fnv1a_fold (B : List Nat) (s : Nat) :
    gu_fnv32a_internal B (B.length : Int) s
        = some (B.foldl (fun t b => (t ^^^ b) * 16777619 % 2 ^ 32) s) ∧
    gu_fnv64a_internal B (B.length : Int) s
        = some (B.foldl (fun t b => (t ^^^ b) * 1099511628211 % 2 ^ 64) s) ∧
    gu_fnv128a_internal B (B.length : Int) s
        = some (B.foldl (fun t b => (t ^^^ b) * (2 ^ 88 + 0x13B) % 2 ^ 128) s) := by
  refine ⟨?_, ?_, ?_⟩
  · rw [gu_fnv32a_internal_fold]
    rfl
  · rw [gu_fnv64a_internal_fold]
    rfl
  · rw [gu_fnv128a_internal_fold]
    have hit : gu_fnv128_iteration
        = fun t b => (t ^^^ b) * (2 ^ 88 + 0x13B) % 2 ^ 128 := by
      funext t b
      unfold gu_fnv128_iteration GU_FNV128_MUL GU_FNV128_PRIME
      norm_num
    rw [hit]

/-- Claim C2: for each width, the shift-and-add decomposition used under
`GU_FNVBITSHIFT_OPTIMIZATION` equals multiplication by that width's FNV prime
modulo `2 ^ w`, for every value; hence the two multiplication strategies give
bit-identical digests for every buffer, length and seed. -/
theorem fnv_bitshift_strategy_eq (x : Nat) (B : List Nat) (len : Int) (s : Nat) :
    GU_FNV32_MUL_bitshift x = x * GU_FNV32_PRIME % 2 ^ 32 ∧
    GU_FNV64_MUL_bitshift x = x * GU_FNV64_PRIME % 2 ^ 64 ∧
    GU_FNV128_MUL_bitshift x = x * GU_FNV128_PRIME % 2 ^ 128 ∧
    gu_fnv32a_internal_bitshift B len s = gu_fnv32a_internal B len s ∧
    gu_fnv64a_internal_bitshift B len s = gu_fnv64a_internal B len s ∧
    gu_fnv128a_internal_bitshift B len s = gu_fnv128a_internal B len s := by
  refine ⟨GU_FNV32_MUL_bitshift_eq x, GU_FNV64_MUL_bitshift_eq x,
    GU_FNV128_MUL_bitshift_eq x, ?_, ?_, ?_⟩
  · unfold gu_fnv32a_internal_bitshift gu_fnv32a_internal
    rw [gu_fnv32_iteration_bitshift_eq]
  · unfold gu_fnv64a_internal_bitshift gu_fnv64a_internal
    rw [gu_fnv64_iteration_bitshift_eq]
  · unfold gu_fnv128a_internal_bitshift gu_fnv128a_internal
    rw [gu_fnv128_iteration_bitshift_eq]

/-- Claim C3: on the two 64-bit limbs `(hi, lo)` of a 128-bit value, the
sparse carry-propagation fallback multiply produces exactly
`x * (2 ^ 88 + 0x13B) mod 2 ^ 128`, the same result as the generic full
128 x 128 -> 128 widening multiplication by the FNV-128 prime. -/
theorem fnv128_fallback_mul_correct (hi lo : Nat) (hhi : hi < 2 ^ 64)
    (hlo : lo < 2 ^ 64) :
    (GU_FNV128_MUL_fallback hi lo).1 * 2 ^ 64 + (GU_FNV128_MUL_fallback hi lo).2
        = (hi * 2 ^ 64 + lo) * (2 ^ 88 + 0x13B) % 2 ^ 128 ∧
    (GU_FNV128_MUL_fallback hi lo).1 * 2 ^ 64 + (GU_FNV128_MUL_fallback hi lo).2
        = GU_MUL128_INPLACE (hi * 2 ^ 64 + lo) GU_FNV128_PRIME := by
  have h := GU_FNV128_MUL_fallback_eq hi lo hhi hlo
  refine ⟨h.trans ?_, h⟩
  unfold GU_MUL128_INPLACE GU_FNV128_PRIME
  norm_num

/-- Witness for claim C3 at the concrete limbs `hi = 3`, `lo = 12345`. -/
theorem fnv128_fallback_mul_correct_witness :
    (3 : Nat) < 2 ^ 64 ∧ (12345 : Nat) < 2 ^ 64 ∧
    ((GU_FNV128_MUL_fallback 3 12345).1 * 2 ^ 64
          + (GU_FNV128_MUL_fallback 3 12345).2
        = (3 * 2 ^ 64 + 12345) * (2 ^ 88 + 0x13B) % 2 ^ 128 ∧
      (GU_FNV128_MUL_fallback 3 12345).1 * 2 ^ 64
          + (GU_FNV128_MUL_fallback 3 12345).2
        = GU_MUL128_INPLACE (3 * 2 ^ 64 + 12345) GU_FNV128_PRIME) :=
  ⟨by norm_num, by norm_num,
    fnv128_fallback_mul_correct 3 12345 (by norm_num) (by norm_num)⟩

/-- Claim C6: the default FNV-1a accumulators reproduce the standard
known-answer vectors for the one-byte buffer containing `0x61`. -/
theorem fnv_known_answer_vectors :
    gu_fnv32a_internal [0x61] 1 GU_FNV32_SEED = some 0xe40c292c ∧
    gu_fnv64a_internal [0x61] 1 GU_FNV64_SEED = some 0xaf63dc4c8601ec8c := by
  constructor
  · rw [show (1 : Int) = (([0x61] : List Nat).length : Int) from rfl,
      gu_fnv32a_internal_fold]
    decide
  · rw [show (1 : Int) = (([0x61] : List Nat).length : Int) from rfl,
      gu_fnv64a_internal_fold]
    decide

/-- Claim C7: for every width and every seed value, hashing the empty buffer
with length 0 leaves the seed unchanged. -/
theorem fnv_empty_input_identity (s : Nat) :
    gu_fnv32a_internal [] 0 s = some s ∧
    gu_fnv64a_internal [] 0 s = some s ∧
    gu_fnv128a_internal [] 0 s = some s := by
  refine ⟨?_, ?_, ?_⟩
  · show gu_fnv32a_internal [] (([] : List Nat).length : Int) s = some s
    rw [gu_fnv32a_internal_fold]
    rfl
  · show gu_fnv64a_internal [] (([] : List Nat).length : Int) s = some s
    rw [gu_fnv64a_internal_fold]
    rfl
  · show gu_fnv128a_internal [] (([] : List Nat).length : Int) s = some s
    rw [gu_fnv128a_internal_fold]
    rfl

/-- Claim C4: for every buffer and every non-negative length, in each of the
three accumulators the read cursor lands exactly on the buffer end after the
unrolled main loop and its conditional tails, so the terminating consistency
assertion `be == bp` holds and the abort branch is unreachable. -/
theorem fnv_cursor_lands_on_end (B : List Nat) (len : Int) (s : Nat)
    (h : 0 ≤ len) :
    (fnvAccum2 gu_fnv32_iteration B len s).2 = len ∧
    (fnvAccum2 gu_fnv64_iteration B len s).2 = len ∧
    (fnvAccum8 gu_fnv128_iteration B len s).2 = len ∧
    (gu_fnv32a_internal B len s).isSome = true ∧
    (gu_fnv64a_internal B len s).isSome = true ∧
    (gu_fnv128a_internal B len s).isSome = true := by
  have c32 := fnvAccum2_cursor gu_fnv32_iteration B len s h
  have c64 := fnvAccum2_cursor gu_fnv64_iteration B len s h
  have c128 := fnvAccum8_cursor gu_fnv128_iteration B len s h
  refine ⟨c32, c64, c128, ?_, ?_, ?_⟩
  · unfold gu_fnv32a_internal fnvAssert
    rw [if_pos c32.symm]
    rfl
  · unfold gu_fnv64a_internal fnvAssert
    rw [if_pos c64.symm]
    rfl
  · unfold gu_fnv128a_internal fnvAssert
    rw [if_pos c128.symm]
    rfl

/-- Witness for claim C4 at the concrete buffer `[10, 20, 30]`, length 3,
seed 5. -/
theorem fnv_cursor_lands_on_end_witness :
    (0 : Int) ≤ 3 ∧
    ((fnvAccum2 gu_fnv32_iteration [10, 20, 30] 3 5).2 = 3 ∧
      (fnvAccum2 gu_fnv64_iteration [10, 20, 30] 3 5).2 = 3 ∧
      (fnvAccum8 gu_fnv128_iteration [10, 20, 30] 3 5).2 = 3 ∧
      (gu_fnv32a_internal [10, 20, 30] 3 5).isSome = true ∧
      (gu_fnv64a_internal [10, 20, 30] 3 5).isSome = true ∧
      (gu_fnv128a_internal [10, 20, 30] 3 5).isSome = true) :=
  ⟨by decide, fnv_cursor_lands_on_end [10, 20, 30] 3 5 (by decide)⟩

/-- Claim C5: for each width, the big-endian wrapper path (byte-swap the
stored seed, run the little-endian-canonical internal accumulator, byte-swap
the result back), observed on logical seed and digest values, equals the
little-endian pass-through path for every buffer and every representable
logical seed. -/
theorem fnv_big_endian_path_eq_internal (B : List Nat) (s : Nat) :
    (s < 2 ^ 32 → gu_fnv32a_big_endian_logical B (B.length : Int) s
        = gu_fnv32a_internal B (B.length : Int) s) ∧
    (s < 2 ^ 64 → gu_fnv64a_big_endian_logical B (B.length : Int) s
        = gu_fnv64a_internal B (B.length : Int) s) ∧
    (s < 2 ^ 128 → gu_fnv128a_big_endian_logical B (B.length : Int) s
        = gu_fnv128a_internal B (B.length : Int) s) :=
  ⟨gu_fnv32a_big_endian_logical_eq B s, gu_fnv64a_big_endian_logical_eq B s,
    gu_fnv128a_big_endian_logical_eq B s⟩

/-- Witness for claim C5 at the concrete buffer `[0x61]` and logical seed 1. -/
theorem fnv_big_endian_path_eq_internal_witness :
    ((1 : Nat) < 2 ^ 32 ∧
      gu_fnv32a_big_endian_logical [0x61] 1 1 = gu_fnv32a_internal [0x61] 1 1) ∧
    ((1 : Nat) < 2 ^ 64 ∧
      gu_fnv64a_big_endian_logical [0x61] 1 1 = gu_fnv64a_internal [0x61] 1 1) ∧
    ((1 : Nat) < 2 ^ 128 ∧
      gu_fnv128a_big_endian_logical [0x61] 1 1 = gu_fnv128a_internal [0x61] 1 1) :=
  ⟨⟨by norm_num, (fnv_big_endian_path_eq_internal [0x61] 1).1 (by norm_num)⟩,
    ⟨by norm_num, (fnv_big_endian_path_eq_internal [0x61] 1).2.1 (by norm_num)⟩,
    ⟨by norm_num, (fnv_big_endian_path_eq_internal [0x61] 1).2.2 (by norm_num)⟩⟩

/-- Counterexample for claim C5 as literally stated: the composed big-endian
machine-value function `bswap (f_B (bswap s))` is not equal to the internal
function `f_B s` pointwise on seed values — at buffer `[0x61]`, length 1 and
seed 0 the two differ (the equality only holds after also conjugating the
seed and digest by the big-endian representation map). -/
theorem fnv_big_endian_naive_counterexample :
    gu_fnv32a_big_endian [0x61] 1 0 ≠ gu_fnv32a_internal [0x61] 1 0 := by
  rw [show (1 : Int) = (([0x61] : List Nat).length : Int) from rfl]
  unfold gu_fnv32a_big_endian
  rw [gu_fnv32a_internal_fold [0x61] (gu_bswap32 0),
    gu_fnv32a_internal_fold [0x61] 0]
  decide

/-- Claim C8: there is a non-trivial buffer and a seed for which the FNV-1
("normal") ordering and the FNV-1a (default) ordering produce different
digests at every width: the two orderings are not equivalent as functions. -/
theorem fnv1_ne_fnv1a :
    ∃ (B : List Nat) (s : Nat), B ≠ [] ∧
      gu_fnv32a_internal B (B.length : Int) s
        ≠ gu_fnv32a_internal_normal B (B.length : Int) s ∧
      gu_fnv64a_internal B (B.length : Int) s
        ≠ gu_fnv64a_internal_normal B (B.length : Int) s ∧
      gu_fnv128a_internal B (B.length : Int) s
        ≠ gu_fnv128a_internal_normal B (B.length : Int) s := by
  refine ⟨[0x61], 0, by decide, ?_, ?_, ?_⟩
  · rw [gu_fnv32a_internal_fold, gu_fnv32a_internal_normal_fold]
    decide
  · rw [gu_fnv64a_internal_fold, gu_fnv64a_internal_normal_fold]
    decide
  · rw [gu_fnv128a_internal_fold, gu_fnv128a_internal_normal_fold]
    decide

/-- Claim C9: for every width, hashing the concatenation `B1 ++ B2` from seed
`s` equals hashing `B1` from `s` and then hashing `B2` from the intermediate
digest: re-seeding with a prior digest is equivalent to a single pass. -/
theorem fnv_concat_compose (B1 B2 : List Nat) (s : Nat) :
    gu_fnv32a_internal (B1 ++ B2) ((B1 ++ B2).length : Int) s
        = (gu_fnv32a_internal B1 (B1.length : Int) s).bind
            (fun t => gu_fnv32a_internal B2 (B2.length : Int) t) ∧
    gu_fnv64a_internal (B1 ++ B2) ((B1 ++ B2).length : Int) s
        = (gu_fnv64a_internal B1 (B1.length : Int) s).bind
            (fun t => gu_fnv64a_internal B2 (B2.length : Int) t) ∧
    gu_fnv128a_internal (B1 ++ B2) ((B1 ++ B2).length : Int) s
        = (gu_fnv128a_internal B1 (B1.length : Int) s).bind
            (fun t => gu_fnv128a_internal B2 (B2.length : Int) t) := by
  refine ⟨?_, ?_, ?_⟩
  · rw [gu_fnv32a_internal_fold (B1 ++ B2) s, gu_fnv32a_internal_fold B1 s,
      Option.some_bind, gu_fnv32a_internal_fold B2 _, List.foldl_append]
  · rw [gu_fnv64a_internal_fold (B1 ++ B2) s, gu_fnv64a_internal_fold B1 s,
      Option.some_bind, gu_fnv64a_internal_fold B2 _, List.foldl_append]
  · rw [gu_fnv128a_internal_fold (B1 ++ B2) s, gu_fnv128a_internal_fold B1 s,
      Option.some_bind, gu_fnv128a_internal_fold B2 _, List.foldl_append]

/-- Claim C10: for every strictly negative length, each accumulator executes
no iteration (the seed is unchanged and the cursor never moves) and the
terminating assertion `be == bp` fails, so the call aborts; the assertion
fails exactly when the length is negative. -/
theorem fnv_negative_len_aborts (B : List Nat) (len : Int) (s : Nat) :
    ((gu_fnv32a_internal B len s = none ↔ len < 0) ∧
      (len < 0 → fnvAccum2 gu_fnv32_iteration B len s = (s, 0))) ∧
    ((gu_fnv64a_internal B len s = none ↔ len < 0) ∧
      (len < 0 → fnvAccum2 gu_fnv64_iteration B len s = (s, 0))) ∧
    ((gu_fnv128a_internal B len s = none ↔ len < 0) ∧
      (len < 0 → fnvAccum8 gu_fnv128_iteration B len s = (s, 0))) :=
  ⟨⟨fnvAssert_none_iff_2 gu_fnv32_iteration B len s,
      fnvAccum2_neg gu_fnv32_iteration B len s⟩,
    ⟨fnvAssert_none_iff_2 gu_fnv64_iteration B len s,
      fnvAccum2_neg gu_fnv64_iteration B len s⟩,
    ⟨fnvAssert_none_iff_8 gu_fnv128_iteration B len s,
      fnvAccum8_neg gu_fnv128_iteration B len s⟩⟩

/-- Witness for claim C10 at the concrete buffer `[3]`, length -1, seed 7. -/
theorem fnv_negative_len_aborts_witness :
    gu_fnv32a_internal [3] (-1) 7 = none ∧
    fnvAccum2 gu_fnv32_iteration [3] (-1) 7 = (7, 0) ∧
    gu_fnv64a_internal [3] (-1) 7 = none ∧
    gu_fnv128a_internal [3] (-1) 7 = none :=
  ⟨(fnv_negative_len_aborts [3] (-1) 7).1.1.mpr (by decide),
    (fnv_negative_len_aborts [3] (-1) 7).1.2 (by decide),
    (fnv_negative_len_aborts [3] (-1) 7).2.1.1.mpr (by decide),
    (fnv_negative_len_aborts [3] (-1) 7).2.2.1.mpr (by decide)⟩

end GuFnv
